import Mathlib

/-!
Shallow embedding of src/src/app/api/submit-form/route.ts: the value
normalizer preprocessValue, the module-level Google auth and sheets client
initialization, and the POST handler that appends one row per submission
to a fixed spreadsheet chosen by the userType discriminator.
-/

namespace SubmitForm

/-- Whitespace as trimmed by the JavaScript String.prototype.trim used in
the route (the ASCII subset that can occur in JSON string values). -/
def isJsWs (c : Char) : Bool :=
  c = ' ' || c = '\t' || c = '\n' || c = '\r' || c = '\x0b' || c = '\x0c'

/-- Drop leading and trailing whitespace from a character list. -/
def trimChars (l : List Char) : List Char :=
  ((l.dropWhile isJsWs).reverse.dropWhile isJsWs).reverse

/-- Model of the .trim() calls in the route. -/
def jsTrim (s : String) : String :=
  String.mk (trimChars s.data)

/-- Model of .replace with a dollar regex and an empty replacement: every
dollar character is removed. -/
def stripDollar (s : String) : String :=
  String.mk (s.data.filter (fun c => decide (c ≠ '$')))

/-- Model of .replace with a comma regex and a one-space replacement: every
comma becomes a space. -/
def commaToSpace (s : String) : String :=
  String.mk (s.data.map (fun c => if c = ',' then ' ' else c))

/-- The runtime values a form field can hold, from the FormValue type in the
route: string, string array, number (integral JSON numbers suffice for the
fields this route sees), boolean, null, undefined. -/
inductive FormValue where
  | str (s : String)
  | list (xs : List String)
  | num (n : Int)
  | boolean (b : Bool)
  | null
  | undefined
deriving DecidableEq

/-- Model of the JavaScript Array.prototype.join with a separator. -/
def joinSep (sep : String) : List String → String
  | [] => ""
  | [x] => x
  | x :: y :: rest => x ++ sep ++ joinSep sep (y :: rest)

/-- preprocessValue from the route: arrays map each element through
String(v).trim() and join with a semicolon-space separator; strings drop
dollars, turn commas into spaces and trim; null and undefined become the
empty string; other values stringify and trim. -/
def preprocessValue : FormValue → String
  | .list xs => joinSep "; " (xs.map (fun v => jsTrim v))
  | .str s => jsTrim (commaToSpace (stripDollar s))
  | .null => ""
  | .undefined => ""
  | .num n => jsTrim (toString n)
  | .boolean b => jsTrim (if b then "true" else "false")

/-- What the spec says a string input becomes, stated independently of the
embedding of the route: walk the characters once, dropping every dollar and
turning every comma into a space, then trim. -/
def specNormalizeString (s : String) : String :=
  jsTrim (String.mk (s.data.foldr
    (fun c acc => if c = '$' then acc else (if c = ',' then ' ' else c) :: acc) []))

/-- What the spec says a list input becomes: the elements trimmed, written
between semicolon-space separators. -/
def specListNorm : List String → String
  | [] => ""
  | [x] => jsTrim x
  | x :: y :: rest => jsTrim x ++ "; " ++ specListNorm (y :: rest)

/-- The JWT credential object built by the google.auth.JWT constructor: it
stores whatever email and private key it was given, present or not, and does
not validate them at construction time. -/
structure JWT where
  email : Option String
  key : Option String
deriving DecidableEq

/-- A parsed JSON credential object, as the route reads it: an ordered map
from field names to string values. -/
def KeyFile := List (String × String)

/-- Field access on the parsed credential object, undefined when absent. -/
def keyField (obj : KeyFile) (k : String) : Option String :=
  (obj.find? (fun p => decide (p.1 = k))).map Prod.snd

/-- initializeGoogleAuth from the route, as a function of the outcome of
JSON.parse on the GOOGLE_APPLICATION_CREDENTIALS string: on a parse error
the catch clause logs and sets auth to null; on a successful parse it
constructs the JWT from the client_email and private_key fields, whether or
not they are present. -/
def initializeGoogleAuth (parsed : Except String KeyFile) : Option JWT :=
  match parsed with
  | .error _ => none
  | .ok keyFile => some ⟨keyField keyFile "client_email", keyField keyFile "private_key"⟩

/-- A value thrown in JavaScript, as seen by a catch clause: either an Error
instance carrying a message, or any non-Error value. -/
inductive Thrown where
  | errVal (msg : String)
  | nonError
deriving DecidableEq

/-- The instanceof Error test in the catch clause of POST. -/
def isErrorInstance : Thrown → Bool
  | .errVal _ => true
  | .nonError => false

/-- An initialized sheets_v4.Sheets client, identified abstractly. -/
structure SheetsClient where
  token : Nat
deriving DecidableEq

/-- The module-level mutable state of the route together with the behavior
of the external authorization call: the auth variable, the cached sheets
client, whether auth.authorize() would succeed, how many authorize calls
have been performed, and which client google.sheets would hand out next. -/
structure GState where
  auth : Option JWT
  sheets : Option SheetsClient
  authorizeSucceeds : Bool
  authorizeCount : Nat
  nextClient : Nat
deriving DecidableEq

/-- getSheets from the route: when a client is cached it is returned as is;
otherwise a null auth, or an authorize failure, is caught and rethrown as a
fixed Error, and on success the new client is cached. -/
def getSheets (st : GState) : Except Thrown (SheetsClient × GState) :=
  match st.sheets with
  | some c => .ok (c, st)
  | none =>
    match st.auth with
    | none => .error (.errVal "Failed to initialize Google Sheets API")
    | some _ =>
      if st.authorizeSucceeds then
        .ok (⟨st.nextClient⟩,
          { st with sheets := some ⟨st.nextClient⟩,
                    authorizeCount := st.authorizeCount + 1 })
      else .error (.errVal "Failed to initialize Google Sheets API")

/-- The three fixed spreadsheet identifiers of the route. -/
def SHEET_IDS : List (String × String) :=
  [("buy", "1GbuGCJMBioG3ZMRh-FkaGXMlfQXy18XZgCnp5M_P-D4"),
   ("sell", "10VFNaWb3vDf-K4YKenMaVZBA20pzsEH8Hbrkag8E39M"),
   ("rent", "1q88ckhUiTXdF_j41SLVWibru3KreVWuroo_MOUuxQ10")]

/-- ToPropertyKey coercion of a runtime userType value, as JavaScript
computes it before indexing an object: strings pass through, arrays
stringify by joining their elements with commas, numbers and booleans
stringify, null and undefined become their names. -/
def toPropertyKey : FormValue → String
  | .str s => s
  | .list xs => joinSep "," xs
  | .num n => toString n
  | .boolean b => if b then "true" else "false"
  | .null => "null"
  | .undefined => "undefined"

/-- The property names a plain object literal inherits from
Object.prototype, each bound to a truthy value (a built-in function, the
constructor, or the prototype object itself). -/
def protoKeys : List String :=
  ["constructor", "hasOwnProperty", "isPrototypeOf", "propertyIsEnumerable",
   "toLocaleString", "toString", "valueOf", "__defineGetter__",
   "__defineSetter__", "__lookupGetter__", "__lookupSetter__", "__proto__"]

/-- What indexing SHEET_IDS can produce: undefined on a miss, one of the
spreadsheet identifier strings on an own-key hit, or a truthy inherited
member of Object.prototype reached through the prototype chain. -/
inductive PropValue where
  | missing
  | strVal (s : String)
  | protoFn (name : String)
deriving DecidableEq

/-- Indexing SHEET_IDS with the runtime userType value, with full
JavaScript property-access semantics: the key is coerced with
ToPropertyKey, own keys win, and misses fall through to the
Object.prototype members before reaching undefined. -/
def sheetLookup (v : FormValue) : PropValue :=
  let key := toPropertyKey v
  match (SHEET_IDS.find? (fun p => decide (p.1 = key))).map Prod.snd with
  | some sheetId => .strVal sheetId
  | none => if protoKeys.contains key then .protoFn key else .missing

/-- JavaScript truthiness of the looked-up property value, for the second
half of the route's guard. -/
def propTruthy : PropValue → Bool
  | .missing => false
  | .strVal s => !s.isEmpty
  | .protoFn _ => true

/-- JavaScript truthiness of a form value, for the !userType test. -/
def truthy : FormValue → Bool
  | .str s => !s.isEmpty
  | .list _ => true
  | .num n => decide (n ≠ 0)
  | .boolean b => b
  | .null => false
  | .undefined => false

/-- A parsed request body: the ordered own fields of the JSON object. -/
def Body := List (String × FormValue)

/-- Reading one destructured field off the body, undefined when absent. -/
def lookupField (body : Body) (k : String) : FormValue :=
  match body.find? (fun p => decide (p.1 = k)) with
  | some p => p.2
  | none => .undefined

/-- The eleven fixed field names written into the row, in row order. -/
def rowKeys : List String :=
  ["name", "email", "phoneNumber", "budget", "typesOfHome", "bedrooms",
   "bathrooms", "location", "moveInDuration", "preApproved", "underContract"]

/-- All field names consumed by the destructuring, userType included. -/
def fixedKeys : List String := "userType" :: rowKeys

/-- The rest pattern otherData: the body fields not consumed by the
destructuring, in their original order. -/
def restFields (body : Body) : Body :=
  body.filter (fun p => !(fixedKeys.contains p.1))

/-- The values array built by POST, written as the code writes it: the
server timestamp, the eleven destructured fields through preprocessValue,
then the spread of the preprocessed remaining values. -/
def buildRow (now : String) (body : Body) : List String :=
  let name := lookupField body "name"
  let email := lookupField body "email"
  let phoneNumber := lookupField body "phoneNumber"
  let budget := lookupField body "budget"
  let typesOfHome := lookupField body "typesOfHome"
  let bedrooms := lookupField body "bedrooms"
  let bathrooms := lookupField body "bathrooms"
  let location := lookupField body "location"
  let moveInDuration := lookupField body "moveInDuration"
  let preApproved := lookupField body "preApproved"
  let underContract := lookupField body "underContract"
  [now,
   preprocessValue name,
   preprocessValue email,
   preprocessValue phoneNumber,
   preprocessValue budget,
   preprocessValue typesOfHome,
   preprocessValue bedrooms,
   preprocessValue bathrooms,
   preprocessValue location,
   preprocessValue moveInDuration,
   preprocessValue preApproved,
   preprocessValue underContract]
  ++ (restFields body).map (fun p => preprocessValue p.2)

/-- The provider response data forwarded on success. -/
structure ProviderData where
  payload : String
deriving DecidableEq

/-- The 200 response body shape of the route. -/
structure RespOk where
  success : Bool
  data : ProviderData
deriving DecidableEq

/-- The 500 response body shape of the route. -/
structure RespErr where
  success : Bool
  error : String
  message : String
deriving DecidableEq

/-- A JSON response body is one of the two shapes. -/
inductive RespBody where
  | okBody (b : RespOk)
  | errBody (b : RespErr)
deriving DecidableEq

/-- An HTTP response of the route: a status and a JSON body. -/
structure Response where
  status : Nat
  body : RespBody
deriving DecidableEq

/-- The message computed by the catch clause of POST: the message of an
Error instance, the fixed fallback otherwise. -/
def errorMessage (t : Thrown) : String :=
  if isErrorInstance t then
    match t with
    | .errVal m => m
    | .nonError => "An unexpected error occurred"
  else "An unexpected error occurred"

/-- The catch clause of POST: every caught value becomes a 500 response
with the fixed error label and the computed message. -/
def handleCatch (t : Thrown) : Response :=
  { status := 500,
    body := .errBody { success := false, error := "Internal Server Error",
                       message := errorMessage t } }

/-- The result of the try block of POST on the success path: the sheetId
field holds whatever SHEET_IDS[userType] evaluated to. -/
structure PostSuccess where
  data : ProviderData
  state : GState
  sheetId : PropValue
  row : List String
deriving DecidableEq

/-- The try block of POST: await the parsed body, obtain the sheets client,
destructure, throw the invalid-user-type Error when userType is falsy or
SHEET_IDS[userType] is falsy, build the row, and append it to whatever that
index produced. Errors carry the module state at the point of the throw.
The append argument models sheets.spreadsheets.values.append, an external
call that can reject with any value. -/
def runPost (parse : Except Thrown Body) (st : GState) (now : String)
    (append : SheetsClient → PropValue → List String → Except Thrown ProviderData) :
    Except (Thrown × GState) PostSuccess :=
  match parse with
  | .error t => .error (t, st)
  | .ok body =>
    match getSheets st with
    | .error t => .error (t, st)
    | .ok (client, st1) =>
      let userType := lookupField body "userType"
      if truthy userType && propTruthy (sheetLookup userType) then
        match append client (sheetLookup userType) (buildRow now body) with
        | .error t => .error (t, st1)
        | .ok d => .ok ⟨d, st1, sheetLookup userType, buildRow now body⟩
      else .error (.errVal "Invalid or missing user type", st1)

/-- POST from the route: the try block either returns the 200 success
response with the provider data, or its thrown value reaches the catch
clause and becomes the 500 response. -/
def POST (parse : Except Thrown Body) (st : GState) (now : String)
    (append : SheetsClient → PropValue → List String → Except Thrown ProviderData) :
    Response × GState :=
  match runPost parse st now append with
  | .ok r => ({ status := 200, body := .okBody { success := true, data := r.data } }, r.state)
  | .error (t, stErr) => (handleCatch t, stErr)

/-- A module state whose auth initialization succeeded and whose authorize
call will succeed, before any request has been handled. -/
def demoState : GState := ⟨some ⟨some "svc@example.com", some "key"⟩, none, true, 0, 7⟩

/-- The module state after the first successful getSheets call on
demoState: the client is cached and one authorize call was made. -/
def demoCachedState : GState := { demoState with sheets := some ⟨7⟩, authorizeCount := 1 }

/-- A concrete rent submission body with one extra field. -/
def demoBody : Body :=
  [("userType", .str "rent"), ("name", .str "A. Lee"), ("email", .str "a@x.com"),
   ("phoneNumber", .str "555-1234"), ("budget", .str "$1,200"), ("notes", .str "hi")]

/-- An append call that always succeeds with a fixed provider response. -/
def demoAppend : SheetsClient → PropValue → List String → Except Thrown ProviderData :=
  fun _ _ _ => .ok ⟨"appended"⟩

/-- The try-block result of handling demoBody from demoState. -/
def demoResult : PostSuccess :=
  ⟨⟨"appended"⟩, demoCachedState,
   .strVal "1q88ckhUiTXdF_j41SLVWibru3KreVWuroo_MOUuxQ10",
   buildRow "2026-01-01T00:00:00.000Z" demoBody⟩

/-- A body whose userType is the string toString: not a SHEET_IDS key, yet
truthy through the prototype chain, so the guard passes. -/
def protoBody : Body := [("userType", .str "toString"), ("name", .str "B")]

/-- A body whose userType is the singleton array holding rent: its property
key coerces to rent, so it is routed to the rent spreadsheet. -/
def listBody : Body := [("userType", .list ["rent"]), ("name", .str "C")]

/-! Helper lemmas. -/

/-- Trimming only discards characters: membership descends to the input. -/
lemma mem_of_mem_trimChars {c : Char} {l : List Char} (h : c ∈ trimChars l) : c ∈ l := by
  unfold trimChars at h
  rw [List.mem_reverse] at h
  have h1 : c ∈ (l.dropWhile isJsWs).reverse := (List.dropWhile_sublist _).subset h
  rw [List.mem_reverse] at h1
  exact (List.dropWhile_sublist _).subset h1

/-- The two regex replacements of the route, fused into the single fold of
the spec-side description. -/
lemma map_filter_eq_foldr (l : List Char) :
    (l.filter (fun c => decide (c ≠ '$'))).map (fun c => if c = ',' then ' ' else c) =
      l.foldr (fun c acc => if c = '$' then acc else (if c = ',' then ' ' else c) :: acc) [] := by
  induction l with
  | nil => rfl
  | cons a l ih =>
    by_cases ha : a = '$'
    · simpa [List.filter_cons, ha] using ih
    · simpa [List.filter_cons, ha] using ih

/-- No character of a normalized string input is a dollar or a comma. -/
lemma no_currency_char_of_mem (s : String) (c : Char)
    (hc : c ∈ (preprocessValue (.str s)).data) : c ≠ '$' ∧ c ≠ ',' := by
  have h1 : c ∈ (commaToSpace (stripDollar s)).data := mem_of_mem_trimChars hc
  simp only [commaToSpace, stripDollar, List.mem_map, List.mem_filter,
    decide_eq_true_eq] at h1
  obtain ⟨a, ⟨_, hane⟩, rfl⟩ := h1
  by_cases ha : a = ','
  · simp [ha]
  · simp [ha, hane]

/-- Every character of an element of a joined list appears in the join. -/
lemma mem_joinSep_of_mem {sep : String} {xs : List String} {s : String}
    (hs : s ∈ xs) {c : Char} (hc : c ∈ s.data) : c ∈ (joinSep sep xs).data := by
  induction xs with
  | nil => cases hs
  | cons x rest ih =>
    cases rest with
    | nil =>
      cases hs with
      | head => exact hc
      | tail _ h => cases h
    | cons y t =>
      rw [joinSep, String.data_append, String.data_append]
      cases hs with
      | head => simp [hc]
      | tail _ h => simp [ih h]

/-- Dissection of a successful try-block run: the body parsed, the client
was obtained leaving the returned state, the sheet index came from the
userType lookup, the row is the built one, and the provider data is exactly
what the append call answered. -/
lemma runPost_ok_elim {parse : Except Thrown Body} {st : GState} {now : String}
    {append : SheetsClient → PropValue → List String → Except Thrown ProviderData}
    {r : PostSuccess} (h : runPost parse st now append = .ok r) :
    ∃ body client, parse = .ok body ∧ getSheets st = .ok (client, r.state) ∧
      r.sheetId = sheetLookup (lookupField body "userType") ∧
      r.row = buildRow now body ∧
      append client r.sheetId r.row = .ok r.data := by
  cases parse with
  | error t => cases h
  | ok body =>
    cases hgs : getSheets st with
    | error t => simp only [runPost, hgs] at h; cases h
    | ok p =>
      obtain ⟨client, st1⟩ := p
      simp only [runPost, hgs] at h
      by_cases hg : (truthy (lookupField body "userType") &&
          propTruthy (sheetLookup (lookupField body "userType"))) = true
      · simp only [hg, if_true] at h
        cases hap : append client (sheetLookup (lookupField body "userType"))
            (buildRow now body) with
        | error t => rw [hap] at h; cases h
        | ok d =>
          rw [hap] at h
          cases h
          exact ⟨body, client, rfl, rfl, rfl, rfl, hap⟩
      · rw [Bool.not_eq_true] at hg
        simp only [hg, Bool.false_eq_true, if_false] at h
        cases h

/-! Claim theorems. -/

/-- Claim C1, amended: for every string input, preprocessValue removes every
dollar character, replaces every comma with a space (rather than removing
it), and trims surrounding whitespace; in particular the example input
yields the string with a space between 1 and 200, not the digits fused. -/
theorem preprocess_string_normalization :
    (∀ s, preprocessValue (.str s) = specNormalizeString s) ∧
    preprocessValue (.str "$1,200") = "1 200" := by
  constructor
  · intro s
    simp only [preprocessValue, specNormalizeString, jsTrim, commaToSpace, stripDollar]
    rw [map_filter_eq_foldr]
  · rfl

/-- Claim C1, counterexample to the claim as stated: on the example input
the route does not return the comma-removed digits, because the comma
becomes a space. -/
theorem preprocess_currency_counterexample :
    preprocessValue (.str "$1,200") ≠ "1200" ∧
    preprocessValue (.str "$1,200") = "1 200" := by
  constructor
  · decide
  · rfl

/-- Claim C2, amended: with the body parsed and the sheets client obtained,
the handler appends the built row to whatever truthy value indexing
SHEET_IDS with the userType produces, the three key strings included, so a
rent userType is routed to the rent spreadsheet identifier; POST answers
500 with the invalid-user-type message exactly when userType is falsy or
the index is falsy, which a coerced array key such as the singleton rent
list, or an inherited Object.prototype member such as toString, escapes. -/
theorem post_routes_by_user_type (parse : Except Thrown Body) (st : GState)
    (now : String)
    (append : SheetsClient → PropValue → List String → Except Thrown ProviderData)
    (body : Body) (client : SheetsClient) (st1 : GState)
    (hp : parse = .ok body) (hs : getSheets st = .ok (client, st1)) :
    (∀ pv, truthy (lookupField body "userType") = true →
        sheetLookup (lookupField body "userType") = pv → propTruthy pv = true →
        runPost parse st now append =
          (match append client pv (buildRow now body) with
           | .ok d => .ok ⟨d, st1, pv, buildRow now body⟩
           | .error t2 => .error (t2, st1))) ∧
    ((truthy (lookupField body "userType") = false ∨
        propTruthy (sheetLookup (lookupField body "userType")) = false) →
      (POST parse st now append).1 =
        { status := 500,
          body := .errBody ⟨false, "Internal Server Error",
                            "Invalid or missing user type"⟩ }) := by
  subst hp
  constructor
  · intro pv htr hpv htru
    simp only [runPost, hs, hpv, htr, htru, Bool.and_self, if_true]
    cases append client pv (buildRow now body) <;> rfl
  · intro hbad
    have hrun : runPost (.ok body) st now append =
        .error (.errVal "Invalid or missing user type", st1) := by
      rcases hbad with hf | hn
      · simp only [runPost, hs, hf, Bool.false_and, Bool.false_eq_true, if_false]
      · simp only [runPost, hs, hn, Bool.and_false, Bool.false_eq_true, if_false]
    simp [POST, hrun, handleCatch, errorMessage, isErrorInstance]

/-- Claim C2, counterexample to the claim as stated: a userType that is the
string toString is neither buy, sell nor rent, yet the guard passes through
the prototype chain and POST answers 200, not the claimed 500 rejection;
and a userType that is the singleton rent array coerces to the rent key and
is routed to the rent spreadsheet identifier instead of being rejected. -/
theorem post_user_type_counterexample :
    (POST (.ok protoBody) demoState "2026-01-01T00:00:00.000Z" demoAppend).1.status
        = 200 ∧
    (POST (.ok protoBody) demoState "2026-01-01T00:00:00.000Z" demoAppend).1 ≠
      { status := 500,
        body := .errBody ⟨false, "Internal Server Error",
                          "Invalid or missing user type"⟩ } ∧
    runPost (.ok listBody) demoState "2026-01-01T00:00:00.000Z" demoAppend =
      .ok ⟨⟨"appended"⟩, demoCachedState,
           .strVal "1q88ckhUiTXdF_j41SLVWibru3KreVWuroo_MOUuxQ10",
           buildRow "2026-01-01T00:00:00.000Z" listBody⟩ := by
  refine ⟨rfl, ?_, rfl⟩
  decide

/-- Claim C2, witness: the concrete rent body from a fresh working state is
routed to the rent spreadsheet identifier. -/
theorem post_routes_by_user_type_witness :
    runPost (.ok demoBody) demoState "2026-01-01T00:00:00.000Z" demoAppend =
      .ok demoResult :=
  (post_routes_by_user_type (.ok demoBody) demoState "2026-01-01T00:00:00.000Z"
      demoAppend demoBody ⟨7⟩ demoCachedState rfl (by rfl)).1
    (.strVal "1q88ckhUiTXdF_j41SLVWibru3KreVWuroo_MOUuxQ10")
    (by rfl) (by rfl) (by rfl)

/-- Claim C3: whatever the parsed body, module state, timestamp and append
behavior, POST answers either 200 with the success body whose data is
exactly the provider response the append call returned, or 500 with the
fixed error label and exactly the message the catch clause computes from
the caught value. -/
theorem post_response_dichotomy (parse : Except Thrown Body) (st : GState)
    (now : String)
    (append : SheetsClient → PropValue → List String → Except Thrown ProviderData) :
    (∃ r, runPost parse st now append = .ok r ∧
       (∃ body client, parse = .ok body ∧ getSheets st = .ok (client, r.state) ∧
          append client r.sheetId r.row = .ok r.data) ∧
       POST parse st now append =
         ({ status := 200, body := .okBody ⟨true, r.data⟩ }, r.state)) ∨
    (∃ t stE, runPost parse st now append = .error (t, stE) ∧
       POST parse st now append =
         ({ status := 500,
            body := .errBody ⟨false, "Internal Server Error", errorMessage t⟩ },
          stE)) := by
  cases h : runPost parse st now append with
  | ok r =>
    obtain ⟨body, client, hp, hs, _, _, hap⟩ := runPost_ok_elim h
    exact Or.inl ⟨r, rfl, ⟨body, client, hp, hs, hap⟩, by simp [POST, h]⟩
  | error e =>
    obtain ⟨t, stE⟩ := e
    exact Or.inr ⟨t, stE, rfl, by simp [POST, h, handleCatch]⟩

/-- Claim C4: on any successful run the appended row is the server
timestamp, then the eleven fixed fields normalized in their fixed order,
then the normalized remaining fields in their original body order. -/
theorem appended_row_shape (parse : Except Thrown Body) (st : GState)
    (now : String)
    (append : SheetsClient → PropValue → List String → Except Thrown ProviderData)
    (body : Body) (r : PostSuccess)
    (hp : parse = .ok body) (hr : runPost parse st now append = .ok r) :
    r.row = now :: (rowKeys.map (fun k => preprocessValue (lookupField body k))
      ++ (restFields body).map (fun p => preprocessValue p.2)) := by
  obtain ⟨body2, client, hp2, _, _, hrow, _⟩ := runPost_ok_elim hr
  rw [hp] at hp2
  cases hp2
  rw [hrow]
  rfl

/-- Claim C4, witness: the row appended for the concrete rent body has the
stated shape. -/
theorem appended_row_shape_witness :
    demoResult.row = "2026-01-01T00:00:00.000Z" ::
      (rowKeys.map (fun k => preprocessValue (lookupField demoBody k))
        ++ (restFields demoBody).map (fun p => preprocessValue p.2)) :=
  appended_row_shape (.ok demoBody) demoState "2026-01-01T00:00:00.000Z" demoAppend
    demoBody demoResult rfl (by rfl)

/-- Claim C5: for every list input the normalizer yields the elements
trimmed and joined with the semicolon-space separator. -/
theorem preprocess_list_join (xs : List String) :
    preprocessValue (.list xs) = specListNorm xs := by
  induction xs with
  | nil => rfl
  | cons x rest ih =>
    cases rest with
    | nil => rfl
    | cons y t =>
      simp only [preprocessValue, List.map, joinSep, specListNorm]
      simp only [preprocessValue, List.map] at ih
      rw [ih]

/-- Claim C6: for a string input holding a dollar or a comma, the
normalized output holds neither character. -/
theorem normalized_string_no_currency_chars (s : String)
    (h : '$' ∈ s.data ∨ ',' ∈ s.data) :
    '$' ∉ (preprocessValue (.str s)).data ∧ ',' ∉ (preprocessValue (.str s)).data := by
  constructor
  · intro hc
    exact (no_currency_char_of_mem s '$' hc).1 rfl
  · intro hc
    exact (no_currency_char_of_mem s ',' hc).2 rfl

/-- Claim C6, witness: the example currency string holds the characters and
its normalization holds neither. -/
theorem normalized_string_no_currency_chars_witness :
    ('$' ∈ "$1,200".data ∨ ',' ∈ "$1,200".data) ∧
    ('$' ∉ (preprocessValue (.str "$1,200")).data ∧
     ',' ∉ (preprocessValue (.str "$1,200")).data) :=
  ⟨by decide, normalized_string_no_currency_chars "$1,200" (by decide)⟩

/-- Claim C7, amended: a parse failure leaves the credential object null
without raising, and a null auth makes the next getSheets call fail with
the descriptive initialization error; but a successful parse always
constructs a JWT, even when client_email or private_key is missing, so
missing fields do not leave the credential object null. -/
theorem init_auth_amended :
    (∀ msg, initializeGoogleAuth (.error msg) = none) ∧
    (∀ keyFile, initializeGoogleAuth (.ok keyFile) ≠ none) ∧
    (∀ st, st.sheets = none → st.auth = none →
      getSheets st = .error (.errVal "Failed to initialize Google Sheets API")) := by
  refine ⟨fun msg => rfl, fun keyFile => ?_, fun st h1 h2 => ?_⟩
  · simp [initializeGoogleAuth]
  · simp only [getSheets, h1, h2]

/-- Claim C7, counterexample to the claim as stated: a credential object
that parses but lacks both client_email and private_key leaves auth bound
to a JWT with absent fields, not null. -/
theorem init_auth_counterexample :
    initializeGoogleAuth (.ok []) = some ⟨none, none⟩ ∧
    initializeGoogleAuth (.ok []) ≠ none := by
  constructor
  · rfl
  · decide

/-- Claim C7, witness: concrete instances of the three amended clauses. -/
theorem init_auth_amended_witness :
    initializeGoogleAuth (.error "bad json") = none ∧
    initializeGoogleAuth (.ok []) ≠ none ∧
    getSheets ⟨none, none, true, 0, 0⟩ =
      .error (.errVal "Failed to initialize Google Sheets API") :=
  ⟨init_auth_amended.1 "bad json", init_auth_amended.2.1 [],
   init_auth_amended.2.2 ⟨none, none, true, 0, 0⟩ rfl rfl⟩

/-- Claim C8: once getSheets has returned a client, calling it again from
the resulting state returns the same client and leaves the state, its
authorize call count included, unchanged. -/
theorem getSheets_idempotent (st : GState) (c : SheetsClient) (st1 : GState)
    (h : getSheets st = .ok (c, st1)) : getSheets st1 = .ok (c, st1) := by
  cases hs : st.sheets with
  | some c0 =>
    simp only [getSheets, hs] at h
    cases h
    simp only [getSheets, hs]
  | none =>
    cases ha : st.auth with
    | none => simp only [getSheets, hs, ha] at h; cases h
    | some j =>
      by_cases hz : st.authorizeSucceeds = true
      · simp only [getSheets, hs, ha, hz, if_true] at h
        cases h
        rfl
      · rw [Bool.not_eq_true] at hz
        simp only [getSheets, hs, ha, hz, Bool.false_eq_true, if_false] at h
        cases h

/-- Claim C8, witness: a second call after the first successful one returns
the cached client from the unchanged state. -/
theorem getSheets_idempotent_witness :
    getSheets demoCachedState = .ok (⟨7⟩, demoCachedState) :=
  getSheets_idempotent demoState ⟨7⟩ demoCachedState (by rfl)

/-- Claim C9: a list input keeps the dollar and comma characters of its
elements: the example survives unchanged, unlike the same top-level string,
and in general every character of a trimmed element reaches the output. -/
theorem list_elements_preserved :
    preprocessValue (.list ["$1,200"]) = "$1,200" ∧
    preprocessValue (.str "$1,200") ≠ "$1,200" ∧
    ∀ xs s, s ∈ xs → ∀ c, c ∈ (jsTrim s).data →
      c ∈ (preprocessValue (.list xs)).data := by
  refine ⟨rfl, by decide, ?_⟩
  intro xs s hs c hc
  simp only [preprocessValue]
  exact mem_joinSep_of_mem (List.mem_map_of_mem _ hs) hc

/-- Claim C9, witness: the dollar of the singleton list element reaches the
output. -/
theorem list_elements_preserved_witness :
    ("$1,200" ∈ ["$1,200"]) ∧ '$' ∈ (jsTrim "$1,200").data ∧
    '$' ∈ (preprocessValue (.list ["$1,200"])).data :=
  ⟨by decide, by decide,
   list_elements_preserved.2.2 ["$1,200"] "$1,200" (by decide) '$' (by decide)⟩

/-- Claim C10: a caught value that is not an Error instance produces the
500 response with the fixed fallback message, nothing derived from the
value. -/
theorem non_error_fallback_message (t : Thrown) (h : isErrorInstance t = false) :
    handleCatch t =
      { status := 500,
        body := .errBody ⟨false, "Internal Server Error",
                          "An unexpected error occurred"⟩ } := by
  cases t with
  | errVal m => simp [isErrorInstance] at h
  | nonError => rfl

/-- Claim C10, witness: the non-Error thrown value yields the fallback
message. -/
theorem non_error_fallback_message_witness :
    isErrorInstance .nonError = false ∧
    handleCatch .nonError =
      { status := 500,
        body := .errBody ⟨false, "Internal Server Error",
                          "An unexpected error occurred"⟩ } :=
  ⟨rfl, non_error_fallback_message .nonError rfl⟩

end SubmitForm
